import Mathlib

/-!
Verification of the WebPage2PDF Bundle batch converter.

This file gives a shallow embedding of the conversion pipeline implemented in
`webpage2pdf_bundle.py` (CSV row extraction, output-path planning, the per-URL
worker `process_url`, the completion-polling tick `check_futures`, and the
merge/cleanup finalization `finish_conversion`), together with theorems about
row handling, output-path uniqueness, merge ordering, cancellation behaviour
and error handling.

External effects are modelled explicitly: the file system is a predicate
telling which paths exist, the renderer is a function returning success or an
error message, and GUI popups / log lines are recorded as data in the result
traces.
-/

namespace Webpage2PDF

/-! ### Decimal rendering

Python's f-strings render the 1-based row index `i` with `str(i)`; this is
modelled by Lean's `Nat.repr`.  We prove the two facts the path-uniqueness
claims need: the rendered digit list determines the number (via the decimal
valuation `digitsVal`), and it never contains an underscore.
-/

/-- Numeric value of a decimal digit character. -/
def charVal (c : Char) : Nat := c.toNat - 48

/-- Decimal value of a big-endian digit-character list. -/
def digitsVal (ds : List Char) : Nat := ds.foldl (fun a c => 10 * a + charVal c) 0

theorem digitsVal_append_singleton (l : List Char) (c : Char) :
    digitsVal (l ++ [c]) = 10 * digitsVal l + charVal c := by
  unfold digitsVal
  rw [List.foldl_append]
  rfl

theorem digitChar_val : ∀ d : Nat, d < 10 → charVal (Nat.digitChar d) = d := by decide

theorem digitChar_ne_underscore : ∀ d : Nat, d < 10 → Nat.digitChar d ≠ '_' := by decide

theorem toDigitsCore_ten_append (fuel : Nat) :
    ∀ (n : Nat) (ds : List Char),
      Nat.toDigitsCore 10 fuel n ds = Nat.toDigitsCore 10 fuel n [] ++ ds := by
  induction fuel with
  | zero => intro n ds; simp [Nat.toDigitsCore]
  | succ f ih =>
    intro n ds
    simp only [Nat.toDigitsCore]
    by_cases h10 : n / 10 = 0
    · simp [h10]
    · simp only [h10, if_false]
      rw [ih (n / 10) (Nat.digitChar (n % 10) :: ds),
        ih (n / 10) [Nat.digitChar (n % 10)]]
      simp

theorem digitsVal_toDigitsCore (fuel : Nat) :
    ∀ n : Nat, n < fuel → digitsVal (Nat.toDigitsCore 10 fuel n []) = n := by
  induction fuel with
  | zero => intro n h; omega
  | succ f ih =>
    intro n h
    by_cases h10 : n / 10 = 0
    · have hn : n < 10 := by omega
      simp only [Nat.toDigitsCore, h10, if_true]
      show digitsVal ([] ++ [Nat.digitChar (n % 10)]) = n
      rw [digitsVal_append_singleton, digitChar_val (n % 10) (Nat.mod_lt n (by omega))]
      have := Nat.mod_eq_of_lt hn
      simp [digitsVal, this]
    · have hdiv : n / 10 < n := Nat.div_lt_self (by omega) (by omega)
      simp only [Nat.toDigitsCore, h10, if_false]
      rw [toDigitsCore_ten_append, digitsVal_append_singleton,
        ih (n / 10) (by omega), digitChar_val (n % 10) (Nat.mod_lt n (by omega))]
      omega

theorem repr_data (n : Nat) : (Nat.repr n).data = Nat.toDigitsCore 10 (n + 1) n [] := rfl

theorem digitsVal_repr (n : Nat) : digitsVal (Nat.repr n).data = n := by
  rw [repr_data]
  exact digitsVal_toDigitsCore (n + 1) n (Nat.lt_succ_self n)

theorem repr_data_inj {m n : Nat} (h : (Nat.repr m).data = (Nat.repr n).data) : m = n := by
  have hm := digitsVal_repr m
  rw [h, digitsVal_repr] at hm
  exact hm.symm

theorem toDigitsCore_ten_no_underscore (fuel : Nat) :
    ∀ (n : Nat) (ds : List Char), '_' ∉ ds → '_' ∉ Nat.toDigitsCore 10 fuel n ds := by
  induction fuel with
  | zero => intro n ds hds; simpa [Nat.toDigitsCore] using hds
  | succ f ih =>
    intro n ds hds
    have hd : Nat.digitChar (n % 10) ≠ '_' :=
      digitChar_ne_underscore (n % 10) (Nat.mod_lt n (by omega))
    simp only [Nat.toDigitsCore]
    by_cases h10 : n / 10 = 0
    · simp only [h10, if_true]
      intro hmem
      rcases List.mem_cons.mp hmem with h | h
      · exact hd h.symm
      · exact hds h
    · simp only [h10, if_false]
      apply ih
      intro hmem
      rcases List.mem_cons.mp hmem with h | h
      · exact hd h.symm
      · exact hds h

theorem repr_no_underscore (n : Nat) : '_' ∉ (Nat.repr n).data := by
  rw [repr_data]
  exact toDigitsCore_ten_no_underscore (n + 1) n [] (by simp)

/-! ### Splitting strings at a separating underscore -/

theorem underscore_split_front :
    ∀ (d1 : List Char), '_' ∉ d1 → ∀ (d2 : List Char), '_' ∉ d2 →
      ∀ (s1 s2 : List Char), d1 ++ '_' :: s1 = d2 ++ '_' :: s2 → d1 = d2 ∧ s1 = s2 := by
  intro d1
  induction d1 with
  | nil =>
    intro _ d2 h2 s1 s2 h
    cases d2 with
    | nil => simpa using h
    | cons b bs =>
      exfalso
      simp only [List.nil_append, List.cons_append, List.cons.injEq] at h
      exact h2 (h.1 ▸ List.mem_cons_self b bs)
  | cons a as ih =>
    intro h1 d2 h2 s1 s2 h
    cases d2 with
    | nil =>
      exfalso
      simp only [List.nil_append, List.cons_append, List.cons.injEq] at h
      exact h1 (h.1 ▸ List.mem_cons_self a as)
    | cons b bs =>
      simp only [List.cons_append, List.cons.injEq] at h
      obtain ⟨rfl, h'⟩ := h
      have has : '_' ∉ as := fun hm => h1 (List.mem_cons_of_mem a hm)
      have hbs : '_' ∉ bs := fun hm => h2 (List.mem_cons_of_mem a hm)
      obtain ⟨he, hs⟩ := ih has bs hbs s1 s2 h'
      exact ⟨by rw [he], hs⟩

theorem underscore_split_back (b1 y1 b2 y2 : List Char)
    (hy1 : '_' ∉ y1) (hy2 : '_' ∉ y2)
    (h : b1 ++ '_' :: y1 = b2 ++ '_' :: y2) : b1 = b2 ∧ y1 = y2 := by
  have hrev : y1.reverse ++ '_' :: b1.reverse = y2.reverse ++ '_' :: b2.reverse := by
    have := congrArg List.reverse h
    simpa [List.reverse_append, List.reverse_cons, List.append_assoc] using this
  have h1 : '_' ∉ y1.reverse := by simpa using hy1
  have h2 : '_' ∉ y2.reverse := by simpa using hy2
  obtain ⟨hy, hb⟩ := underscore_split_front y1.reverse h1 y2.reverse h2 _ _ hrev
  constructor
  · have := congrArg List.reverse hb
    simpa using this
  · have := congrArg List.reverse hy
    simpa using this

/-! ### Data model of the converter -/

/-- Output mode radio selection: merge everything into one PDF, or save each
webpage separately. -/
inductive OutputMode
  | merged
  | separate
deriving DecidableEq

/-- Naming scheme combo box used in separate mode. -/
inductive NamingScheme
  | sequentialTimestamp
  | websiteDomain
deriving DecidableEq

/-- `os.path.join(d, f)` for a directory without trailing separator and a
relative file name. -/
def joinPath (d f : String) : String := d ++ "/" ++ f

/-- CSV URL extraction from `start_conversion`: drop the first row when the
header checkbox is set (`rows = rows[1:]`; an empty list is unchanged, as in
the Python guard `if ... and rows`), then for each row keep
`row[col_index].strip()` when `len(row) > col_index`, skipping shorter rows. -/
def extractUrls (hasHeader : Bool) (colIndex : Nat) (rows : List (List String)) : List String :=
  let kept := if hasHeader then rows.tail else rows
  kept.filterMap fun row =>
    if colIndex < row.length then some ((row.getD colIndex "").trim) else none

/-- Base name under the "Website Domain" scheme:
`base_name = domain if domain else "page"`. -/
def domainBaseName (domain : String) : String :=
  if domain = "" then "page" else domain

/-- Output path planned for 1-based row index `i` in the submission loop of
`start_conversion`.  `domainOf` models `urlparse(url).netloc.replace("www.", "")`
and `timestampAt` models the `datetime.now().strftime("%Y%m%d%H%M%S")` value
observed at iteration `i`; both are external calls passed in as functions. -/
def outputPath (mode : OutputMode) (scheme : NamingScheme) (tempFolder outputDir : String)
    (domainOf : String → String) (timestampAt : Nat → String) (i : Nat) (url : String) :
    String :=
  match mode with
  | .merged => joinPath tempFolder ("page_" ++ Nat.repr i ++ ".pdf")
  | .separate =>
    match scheme with
    | .websiteDomain =>
        joinPath outputDir (domainBaseName (domainOf url) ++ "_" ++ Nat.repr i ++ ".pdf")
    | .sequentialTimestamp =>
        joinPath outputDir ("page_" ++ Nat.repr i ++ "_" ++ timestampAt i ++ ".pdf")

/-- `for i, url in enumerate(urls, start=1)`: each extracted URL is paired with
its 1-based row index; each pair is submitted to the executor exactly once. -/
def submissions (urls : List String) : List (Nat × String) := urls.enumFrom 1

/-- The full submission plan: `(index, url, output_path)` triples, one per
submitted future, in submission order. -/
def plannedRun (mode : OutputMode) (scheme : NamingScheme) (tempFolder outputDir : String)
    (domainOf : String → String) (timestampAt : Nat → String) (urls : List String) :
    List (Nat × String × String) :=
  (submissions urls).map fun p =>
    (p.1, p.2, outputPath mode scheme tempFolder outputDir domainOf timestampAt p.1 p.2)

/-- The `output_paths` dictionary built alongside the submission loop, as an
association list in insertion order. -/
def outputPathsOf (plan : List (Nat × String × String)) : List (Nat × String) :=
  plan.map fun t => (t.1, t.2.2)

/-! ### The `start_conversion` validation sequence -/

/-- Inputs to one press of the Start button.  File-system probes
(`os.path.isfile`, `os.path.isdir`), the pdfkit configuration call, the CSV
read and the numeric-field parses are external effects, modelled by their
observed outcomes. -/
structure StartInputs where
  csvIsFile : Bool
  wkIsFile : Bool
  configOk : Bool
  csvReadOk : Bool
  rows : List (List String)
  hasHeader : Bool
  colIndex : Nat
  marginsNumeric : Bool
  maxWorkersNumeric : Bool
  mode : OutputMode
  scheme : NamingScheme
  outputDirField : String
  outputDirIsDir : Bool
  cwd : String
  domainOf : String → String
  timestampAt : Nat → String

/-- A run that passed all validation and submitted its futures. -/
structure StartedRun where
  usedOutputDir : String
  fallbackLogged : Bool
  plan : List (Nat × String × String)
deriving DecidableEq

/-- Outcome of `start_conversion` up to submission: an error popup and return,
an informational popup and return, or a started run. -/
inductive StartOutcome
  | abortError (msg : String)
  | abortInfo (msg : String)
  | started (run : StartedRun)
deriving DecidableEq

/-- The validation cascade of `start_conversion`: CSV path, wkhtmltopdf path,
pdfkit configuration, CSV read, empty URL list, numeric margins, output
directory resolution (separate mode falls back to the current working
directory with a log line instead of aborting), numeric max-workers, then the
submission loop. -/
def start_conversion (inp : StartInputs) : StartOutcome :=
  if !inp.csvIsFile then .abortError "Please select a valid CSV file."
  else if !inp.wkIsFile then .abortError "Please select a valid wkhtmltopdf executable path."
  else if !inp.configOk then .abortError "Error configuring pdfkit"
  else if !inp.csvReadOk then .abortError "Error reading CSV file"
  else
    let urls := extractUrls inp.hasHeader inp.colIndex inp.rows
    if urls.isEmpty then .abortInfo "No URLs found in CSV file."
    else if !inp.marginsNumeric then .abortError "Margins must be numeric values."
    else
      let tempFolder := joinPath inp.cwd "temp_pdfs"
      let fallback := inp.mode = .separate ∧ inp.outputDirIsDir = false
      let usedDir := if fallback then inp.cwd else inp.outputDirField
      if !inp.maxWorkersNumeric then .abortError "Max Workers must be a numeric value."
      else
        .started
          { usedOutputDir := usedDir
            fallbackLogged := decide fallback
            plan := plannedRun inp.mode inp.scheme tempFolder usedDir inp.domainOf
              inp.timestampAt urls }

/-- Whether the outcome reached the submission loop. -/
def StartOutcome.isStarted : StartOutcome → Bool
  | .started _ => true
  | _ => false

/-- Submission plan of an outcome (empty when the run aborted). -/
def StartOutcome.planOf : StartOutcome → List (Nat × String × String)
  | .started r => r.plan
  | _ => []

/-! ### The per-URL worker, the polling tick, and finalization -/

/-- `process_url`: returns `None` immediately when the cancel flag is set at
entry; otherwise invokes the renderer (`pdfkit.from_url`), catching any
exception and returning it as data.  The second component records the renderer
invocations made by this worker. -/
def process_url (cancelled : Bool) (render : String → String → Except String Unit)
    (url : String) (index : Nat) (output_path : String) :
    Option (Nat × String × Option String) × List (String × String) :=
  if cancelled then (none, [])
  else
    match render url output_path with
    | .ok _ => (some (index, output_path, none), [(url, output_path)])
    | .error e => (some (index, output_path, some e), [(url, output_path)])

/-- All workers of a run: `cancelledAt i` is the cancel-flag value observed at
the start of the task for row `i`.  Returns the future results in submission
order and the concatenated renderer invocations. -/
def runAll (cancelledAt : Nat → Bool) (render : String → String → Except String Unit)
    (plan : List (Nat × String × String)) :
    List (Option (Nat × String × Option String)) × List (String × String) :=
  ((plan.map fun t => (process_url (cancelledAt t.1) render t.2.1 t.1 t.2.2).1),
   (plan.map fun t => (process_url (cancelledAt t.1) render t.2.1 t.1 t.2.2).2).flatten)

/-- Decision of one 500ms `check_futures` tick. -/
inductive TickAction
  | reschedule
  | finalize
deriving DecidableEq

/-- One polling tick: reschedule while some future is pending and the cancel
flag is clear; otherwise shut down the executor and finalize. -/
def check_futures (completed total : Nat) (cancelled : Bool) : TickAction :=
  if completed < total ∧ cancelled = false then .reschedule else .finalize

/-- `results.sort(key=lambda x: x[0])`: stable sort of the `(index, path)`
pairs by index. -/
def sortResults (output_paths : List (Nat × String)) : List (Nat × String) :=
  output_paths.mergeSort fun a b => a.1 ≤ b.1

/-- Observable trace of `finish_conversion`: pages appended to the merger, log
lines, popups shown, files whose deletion was attempted, and the folder whose
removal was attempted. -/
structure FinishTrace where
  appended : List String
  logLines : List String
  successPopup : Option String
  errorPopup : Option String
  removeAttempted : List String
  rmdirAttempted : Option String
deriving DecidableEq

/-- `finish_conversion`: sort the `(index, path)` pairs by index; in merged
mode append each path whose file exists, write the merged PDF (`writeResult`
is the outcome of `merger.write`; exceptions are caught and reported), then
best-effort delete every temporary path and best-effort remove the temporary
folder (the dirname of the first `output_paths` value; when `output_paths` is
empty the indexing error is swallowed by the same `try`).  In separate mode
only a success message is emitted. -/
def finish_conversion (mode : OutputMode) (output_paths : List (Nat × String))
    (pathExists : String → Bool) (writeResult : Except String Unit)
    (outputPdf : String) (dirnameOf : String → String) : FinishTrace :=
  let results := sortResults output_paths
  match mode with
  | .merged =>
    let appended := (results.filter fun p => pathExists p.2).map Prod.snd
    match writeResult with
    | .ok _ =>
      { appended := appended
        logLines := ["Merged PDF created at " ++ outputPdf]
        successPopup := some ("Merged PDF created at " ++ outputPdf)
        errorPopup := none
        removeAttempted := results.map Prod.snd
        rmdirAttempted := (output_paths.map Prod.snd).head?.map dirnameOf }
    | .error e =>
      { appended := appended
        logLines := ["Error merging PDFs: " ++ e]
        successPopup := none
        errorPopup := some ("Error merging PDFs: " ++ e)
        removeAttempted := results.map Prod.snd
        rmdirAttempted := (output_paths.map Prod.snd).head?.map dirnameOf }
  | .separate =>
    { appended := []
      logLines := ["Individual PDFs created successfully."]
      successPopup := some "Individual PDFs have been created."
      errorPopup := none
      removeAttempted := []
      rmdirAttempted := none }

/-! ### Helper lemmas -/

theorem data_underscore : ("_" : String).data = ['_'] := rfl

theorem filterMap_guard {α β : Type} (p : α → Prop) [DecidablePred p] (f : α → β) :
    ∀ l : List α,
      (l.filterMap fun a => if p a then some (f a) else none)
        = (l.filter fun a => decide (p a)).map f := by
  intro l
  induction l with
  | nil => rfl
  | cons a as ih =>
    by_cases h : p a <;> simp [List.filterMap_cons, List.filter_cons, h, ih]

theorem sortResults_sorted (ps : List (Nat × String)) :
    (sortResults ps).Pairwise fun a b => a.1 ≤ b.1 := by
  have h := @List.sorted_mergeSort (Nat × String)
    (fun a b => decide (a.1 ≤ b.1))
    (fun a b c h1 h2 => by
      simp only [decide_eq_true_eq] at h1 h2 ⊢
      omega)
    (fun a b => by
      simp only [Bool.or_eq_true, decide_eq_true_eq]
      omega) ps
  exact h.imp fun hab => by simpa using hab

theorem sortResults_perm (ps : List (Nat × String)) : (sortResults ps).Perm ps :=
  List.mergeSort_perm ps _

theorem sortResults_strict (ps : List (Nat × String))
    (hnodup : (ps.map Prod.fst).Nodup) :
    (sortResults ps).Pairwise fun a b => a.1 < b.1 := by
  have hperm : (sortResults ps).Perm ps := sortResults_perm ps
  have hnd : ((sortResults ps).map Prod.fst).Nodup :=
    hnodup.perm (hperm.map Prod.fst).symm
  have hne : (sortResults ps).Pairwise fun a b => a.1 ≠ b.1 :=
    List.pairwise_map.mp hnd
  exact ((sortResults_sorted ps).and hne).imp fun h => lt_of_le_of_ne h.1 h.2

theorem sortResults_eq_of_perm (ps qs : List (Nat × String))
    (hperm : ps.Perm qs) (hnodup : (ps.map Prod.fst).Nodup) :
    sortResults ps = sortResults qs := by
  haveI : IsAntisymm (Nat × String) fun a b => a.1 < b.1 :=
    ⟨fun a b h1 h2 => absurd (h1.trans h2) (lt_irrefl _)⟩
  have hq : (qs.map Prod.fst).Nodup := hnodup.perm (hperm.map Prod.fst)
  exact List.eq_of_perm_of_sorted
    ((sortResults_perm ps).trans (hperm.trans (sortResults_perm qs).symm))
    (sortResults_strict ps hnodup) (sortResults_strict qs hq)

/-- Distinctness kernel for merged-mode paths `tempFolder/page_<i>.pdf`. -/
theorem mergedPath_ne (tempFolder : String) (i j : Nat) (hij : i ≠ j) :
    joinPath tempFolder ("page_" ++ Nat.repr i ++ ".pdf")
      ≠ joinPath tempFolder ("page_" ++ Nat.repr j ++ ".pdf") := by
  intro h
  have h' := congrArg String.data h
  simp only [joinPath, String.data_append, List.append_assoc] at h'
  have h1 := List.append_cancel_left h'
  have h2 := List.append_cancel_left h1
  have h3 := List.append_cancel_left h2
  exact hij (repr_data_inj (List.append_cancel_right h3))

/-- Distinctness kernel for sequential-with-timestamp paths
`outputDir/page_<i>_<timestamp>.pdf`, for any timestamp strings. -/
theorem seqPath_ne (outputDir ts1 ts2 : String) (i j : Nat) (hij : i ≠ j) :
    joinPath outputDir ("page_" ++ Nat.repr i ++ "_" ++ ts1 ++ ".pdf")
      ≠ joinPath outputDir ("page_" ++ Nat.repr j ++ "_" ++ ts2 ++ ".pdf") := by
  intro h
  have h' := congrArg String.data h
  simp only [joinPath, String.data_append, List.append_assoc, data_underscore,
    List.singleton_append] at h'
  have h1 := List.append_cancel_left h'
  injection h1 with _ h2
  have h3 := List.append_cancel_left h2
  exact hij (repr_data_inj
    (underscore_split_front (Nat.repr i).data (repr_no_underscore i)
      (Nat.repr j).data (repr_no_underscore j) _ _ h3).1)

/-- Distinctness kernel for domain-scheme paths `outputDir/<base>_<i>.pdf`,
for any base names. -/
theorem domainPath_ne (outputDir b1 b2 : String) (i j : Nat) (hij : i ≠ j) :
    joinPath outputDir (b1 ++ "_" ++ Nat.repr i ++ ".pdf")
      ≠ joinPath outputDir (b2 ++ "_" ++ Nat.repr j ++ ".pdf") := by
  intro h
  have h' := congrArg String.data h
  simp only [joinPath, String.data_append, List.append_assoc, data_underscore,
    List.singleton_append] at h'
  have h1 := List.append_cancel_left h'
  injection h1 with _ h2
  have hy1 : '_' ∉ (Nat.repr i).data ++ ['.', 'p', 'd', 'f'] := by
    intro hm
    rcases List.mem_append.mp hm with hm | hm
    · exact repr_no_underscore i hm
    · simp at hm
  have hy2 : '_' ∉ (Nat.repr j).data ++ ['.', 'p', 'd', 'f'] := by
    intro hm
    rcases List.mem_append.mp hm with hm | hm
    · exact repr_no_underscore j hm
    · simp at hm
  have := (underscore_split_back b1.data _ b2.data _ hy1 hy2 h2).2
  exact hij (repr_data_inj (List.append_cancel_right this))

/-! ### Claim theorems -/

/-- C1: in merged mode, `finish_conversion` sorts the `(index, path)` pairs by
index before appending each existing file, so the appended pages are in
ascending input row-index order, and the appended sequence is the same for
any permutation of the collected pairs — i.e. independent of the order in
which the concurrent conversions completed. -/
theorem merged_append_sorted_and_order_independent
    (ps qs : List (Nat × String)) (pathExists : String → Bool)
    (w : Except String Unit) (outputPdf : String) (dn : String → String)
    (hperm : ps.Perm qs) (hnodup : (ps.map Prod.fst).Nodup) :
    (finish_conversion .merged ps pathExists w outputPdf dn).appended
      = ((sortResults ps).filter fun p => pathExists p.2).map Prod.snd
    ∧ (sortResults ps).Pairwise (fun a b => a.1 ≤ b.1)
    ∧ (finish_conversion .merged ps pathExists w outputPdf dn).appended
        = (finish_conversion .merged qs pathExists w outputPdf dn).appended := by
  refine ⟨?_, sortResults_sorted ps, ?_⟩
  · cases w <;> rfl
  · have hsort := sortResults_eq_of_perm ps qs hperm hnodup
    cases w <;> simp [finish_conversion, hsort]

/-- C1 witness: the two-row run collected as `[(2, pb), (1, pa)]` (completion
order 2 then 1) appends the same pages as when collected in row order. -/
theorem merged_append_order_witness :
    (finish_conversion .merged [(2, "pb"), (1, "pa")] (fun _ => true) (.ok ())
        "out.pdf" (fun _ => "d")).appended
      = (finish_conversion .merged [(1, "pa"), (2, "pb")] (fun _ => true) (.ok ())
          "out.pdf" (fun _ => "d")).appended :=
  (merged_append_sorted_and_order_independent [(2, "pb"), (1, "pa")] [(1, "pa"), (2, "pb")]
    (fun _ => true) (.ok ()) "out.pdf" (fun _ => "d")
    (List.Perm.swap (1, "pa") (2, "pb") []) (by decide)).2.2

/-- C2 counterexample: with no header row and column index 0, the CSV rows
`[["u"], []]` leave two rows to process but yield only one conversion attempt
— the empty second row has no column 0 and is silently skipped — so the
remaining rows do not map 1:1 to attempted conversions as claimed. -/
theorem csv_rows_not_one_to_one :
    (submissions (extractUrls false 0 [["u"], []])).length
      ≠ ([["u"], []] : List (List String)).length := by decide

/-- C2 (amended): after the header skip, exactly the rows with more than
`colIndex` cells each yield one conversion attempt, carrying the trimmed cell
of the configured 0-based column; shorter rows are skipped; the submitted
`(index, url)` pairs carry pairwise-distinct indices, so no row is attempted
twice and nothing is retried. -/
theorem csv_rows_one_to_one_amended (hasHeader : Bool) (colIndex : Nat)
    (rows : List (List String)) :
    extractUrls hasHeader colIndex rows
      = ((if hasHeader then rows.tail else rows).filter
          fun r => colIndex < r.length).map (fun r => (r.getD colIndex "").trim)
    ∧ (submissions (extractUrls hasHeader colIndex rows)).length
        = ((if hasHeader then rows.tail else rows).filter
            fun r => colIndex < r.length).length
    ∧ ((submissions (extractUrls hasHeader colIndex rows)).map Prod.fst).Nodup := by
  have hchar : extractUrls hasHeader colIndex rows
      = ((if hasHeader then rows.tail else rows).filter
          fun r => colIndex < r.length).map (fun r => (r.getD colIndex "").trim) := by
    unfold extractUrls
    exact filterMap_guard (fun r : List String => colIndex < r.length)
      (fun r : List String => (r.getD colIndex "").trim) _
  refine ⟨hchar, ?_, ?_⟩
  · rw [hchar]
    simp [submissions]
  · rw [submissions, List.enumFrom_map_fst]
    exact List.nodup_range' 1 _

/-- C4: with no cancellation, every submitted URL is attempted: each worker
returns a (caught) result even when the renderer raises — a failing renderer
yields a recorded error tuple, not an exception — so all futures complete and
the polling loop's completed-equals-total tick finalizes the run. -/
theorem failed_conversion_does_not_abort_batch
    (render : String → String → Except String Unit)
    (plan : List (Nat × String × String))
    (url out msg : String) (i total : Nat) (c : Bool) :
    (runAll (fun _ => false) render plan).1.length = plan.length
    ∧ ((runAll (fun _ => false) render plan).1.all fun r => r.isSome) = true
    ∧ process_url false (fun _ _ => .error msg) url i out
        = (some (i, out, some msg), [(url, out)])
    ∧ check_futures total total c = .finalize := by
  constructor
  · simp [runAll]
  constructor
  · simp only [runAll, List.all_eq_true, List.mem_map]
    rintro r ⟨t, _, rfl⟩
    simp only [process_url]
    cases render t.2.1 t.2.2 <;> simp
  constructor
  · rfl
  · simp [check_futures]

/-- C5: a worker whose task starts after the shared cancel flag is set
performs no conversion — it returns `None` with zero renderer invocations —
while a worker that entered with the flag clear invokes the renderer exactly
once and runs it to completion (a result is produced whatever the renderer's
outcome), so cancellation is best-effort and in-flight invocations may still
produce output files. -/
theorem cancellation_skips_unstarted_work
    (render : String → String → Except String Unit) (url out : String) (i : Nat) :
    process_url true render url i out = (none, [])
    ∧ (process_url false render url i out).2 = [(url, out)]
    ∧ (process_url false render url i out).1.isSome = true := by
  refine ⟨rfl, ?_, ?_⟩ <;>
    · simp only [process_url]
      cases render url out <;> simp

/-- Start-button inputs with a valid CSV file and renderer executable but an
invalid output directory, in separate mode, with one URL row. -/
def invalidDirInputs : StartInputs where
  csvIsFile := true
  wkIsFile := true
  configOk := true
  csvReadOk := true
  rows := [["u"]]
  hasHeader := false
  colIndex := 0
  marginsNumeric := true
  maxWorkersNumeric := true
  mode := .separate
  scheme := .sequentialTimestamp
  outputDirField := "bad"
  outputDirIsDir := false
  cwd := "cwd"
  domainOf := fun _ => ""
  timestampAt := fun _ => "t"

/-- C3 counterexample: a run whose output directory is invalid (but whose CSV
and renderer paths are valid) is not aborted up front — it starts and submits
a URL to the renderer, contradicting the claim that an invalid output
directory aborts the run before any conversion work. -/
theorem invalid_output_dir_does_not_abort :
    (start_conversion invalidDirInputs).isStarted = true
    ∧ (start_conversion invalidDirInputs).planOf ≠ [] := by
  constructor
  · rfl
  · decide

/-- C3 (amended): an invalid CSV path aborts the run up front with an error
popup, as does an invalid renderer path, and an aborted run submits no URL;
but an invalid output directory does not abort — a separate-mode run that
starts despite an invalid output directory records the fallback log line and
uses the current working directory instead. -/
theorem upfront_validation_amended (inp : StartInputs) :
    (inp.csvIsFile = false →
      start_conversion inp = .abortError "Please select a valid CSV file.")
    ∧ (inp.csvIsFile = true → inp.wkIsFile = false →
      start_conversion inp
        = .abortError "Please select a valid wkhtmltopdf executable path.")
    ∧ (∀ msg, start_conversion inp = .abortError msg →
        (start_conversion inp).planOf = [])
    ∧ (∀ r, start_conversion inp = .started r → inp.mode = .separate →
        inp.outputDirIsDir = false →
        r.usedOutputDir = inp.cwd ∧ r.fallbackLogged = true) := by
  refine ⟨?_, ?_, ?_, ?_⟩
  · intro h
    simp [start_conversion, h]
  · intro h1 h2
    simp [start_conversion, h1, h2]
  · intro msg h
    rw [h]
    rfl
  · intro r hr hmode hdir
    simp only [start_conversion] at hr
    split at hr
    · simp at hr
    split at hr
    · simp at hr
    split at hr
    · simp at hr
    split at hr
    · simp at hr
    split at hr
    · simp at hr
    split at hr
    · simp at hr
    split at hr
    · simp at hr
    injection hr with h
    subst h
    simp [hmode, hdir]

/-- C3 witness: concrete runs exercising each amended conjunct — an invalid
CSV aborts, an invalid renderer path aborts, the aborted run submits nothing,
and the started run with the invalid output directory uses the working
directory. -/
theorem upfront_validation_witness :
    start_conversion { invalidDirInputs with csvIsFile := false }
      = .abortError "Please select a valid CSV file."
    ∧ start_conversion { invalidDirInputs with wkIsFile := false }
      = .abortError "Please select a valid wkhtmltopdf executable path."
    ∧ (start_conversion { invalidDirInputs with csvIsFile := false }).planOf = []
    ∧ ({ usedOutputDir := "cwd", fallbackLogged := true,
          plan := [(1, "u".trim, "cwd/page_1_t.pdf")] } : StartedRun).usedOutputDir
        = "cwd" := by
  refine ⟨(upfront_validation_amended _).1 rfl,
    (upfront_validation_amended _).2.1 rfl rfl, ?_, ?_⟩
  · exact (upfront_validation_amended _).2.2.1 _ ((upfront_validation_amended _).1 rfl)
  · exact ((upfront_validation_amended invalidDirInputs).2.2.2
      { usedOutputDir := "cwd", fallbackLogged := true,
        plan := [(1, "u".trim, "cwd/page_1_t.pdf")] } rfl rfl rfl).1

/-- C6: whenever merged-mode finalization runs, cleanup is attempted after the
write whatever its outcome: deletion of every temporary per-URL path is
attempted and removal of the temporary folder is attempted, identically for a
successful and a failing `merger.write`; a write failure is reported through a
log line and an error popup instead of propagating. -/
theorem merge_failure_caught_cleanup_attempted
    (ps : List (Nat × String)) (pathExists : String → Bool)
    (outputPdf msg : String) (dn : String → String) :
    (finish_conversion .merged ps pathExists (.ok ()) outputPdf dn).removeAttempted
      = (sortResults ps).map Prod.snd
    ∧ (finish_conversion .merged ps pathExists (.error msg) outputPdf dn).removeAttempted
        = (sortResults ps).map Prod.snd
    ∧ (finish_conversion .merged ps pathExists (.error msg) outputPdf dn).rmdirAttempted
        = (finish_conversion .merged ps pathExists (.ok ()) outputPdf dn).rmdirAttempted
    ∧ (finish_conversion .merged ps pathExists (.error msg) outputPdf dn).errorPopup
        = some ("Error merging PDFs: " ++ msg)
    ∧ (finish_conversion .merged ps pathExists (.error msg) outputPdf dn).logLines
        = ["Error merging PDFs: " ++ msg]
    ∧ (finish_conversion .merged ps pathExists (.error msg) outputPdf dn).appended
        = (finish_conversion .merged ps pathExists (.ok ()) outputPdf dn).appended :=
  ⟨rfl, rfl, rfl, rfl, rfl, rfl⟩

/-- C7: within one run (fixed mode, naming scheme, folders, and external
domain/timestamp observations), distinct row indices are always assigned
distinct output paths — in merged, sequential-with-timestamp, and domain
naming modes alike. -/
theorem output_paths_unique_per_index
    (mode : OutputMode) (scheme : NamingScheme) (tempFolder outputDir : String)
    (domainOf : String → String) (timestampAt : Nat → String)
    (i j : Nat) (urli urlj : String) (hij : i ≠ j) :
    outputPath mode scheme tempFolder outputDir domainOf timestampAt i urli
      ≠ outputPath mode scheme tempFolder outputDir domainOf timestampAt j urlj := by
  cases mode with
  | merged => exact mergedPath_ne tempFolder i j hij
  | separate =>
    cases scheme with
    | sequentialTimestamp =>
      exact seqPath_ne outputDir (timestampAt i) (timestampAt j) i j hij
    | websiteDomain =>
      exact domainPath_ne outputDir (domainBaseName (domainOf urli))
        (domainBaseName (domainOf urlj)) i j hij

/-- C7 witness: rows 1 and 2 of a merged-mode run get distinct temporary
paths. -/
theorem output_paths_unique_witness :
    outputPath .merged .sequentialTimestamp "cwd/temp_pdfs" "out" (fun _ => "")
        (fun _ => "t") 1 "u1"
      ≠ outputPath .merged .sequentialTimestamp "cwd/temp_pdfs" "out" (fun _ => "")
          (fun _ => "t") 2 "u2" :=
  output_paths_unique_per_index .merged .sequentialTimestamp "cwd/temp_pdfs" "out"
    (fun _ => "") (fun _ => "t") 1 2 "u1" "u2" (by decide)

/-- C8: under the "Website Domain" naming scheme, two URLs whose domains yield
the same base name still receive distinct file names, because the 1-based row
index is appended to the base name; and a URL with an empty domain uses the
base name "page". -/
theorem domain_scheme_dedup_and_empty_domain
    (tempFolder outputDir : String) (domainOf : String → String)
    (timestampAt : Nat → String) (i j : Nat) (urli urlj u : String)
    (hij : i ≠ j) (hu : domainOf u = "") :
    outputPath .separate .websiteDomain tempFolder outputDir domainOf timestampAt i urli
      ≠ outputPath .separate .websiteDomain tempFolder outputDir domainOf timestampAt j urlj
    ∧ outputPath .separate .websiteDomain tempFolder outputDir domainOf timestampAt i u
        = joinPath outputDir ("page" ++ "_" ++ Nat.repr i ++ ".pdf") := by
  constructor
  · exact domainPath_ne outputDir (domainBaseName (domainOf urli))
      (domainBaseName (domainOf urlj)) i j hij
  · simp [outputPath, domainBaseName, hu]

/-- C8 witness: two URLs both yielding the empty domain at rows 1 and 2 get
the distinct names `page_1.pdf` and `page_2.pdf`. -/
theorem domain_scheme_dedup_witness :
    outputPath .separate .websiteDomain "tf" "out" (fun _ => "") (fun _ => "t") 1 "a"
      ≠ outputPath .separate .websiteDomain "tf" "out" (fun _ => "") (fun _ => "t") 2 "b"
    ∧ outputPath .separate .websiteDomain "tf" "out" (fun _ => "") (fun _ => "t") 1 "a"
        = joinPath "out" ("page" ++ "_" ++ Nat.repr 1 ++ ".pdf") :=
  domain_scheme_dedup_and_empty_domain "tf" "out" (fun _ => "") (fun _ => "t")
    1 2 "a" "b" "a" (by decide) rfl

/-- C9: merged-mode finalization appends exactly the index-sorted paths whose
file exists at merge time; an index whose file is missing (failed or
cancellation-skipped conversion) is silently omitted — every appended path
passes the existence check, and a successful write reports no error — and the
merge proceeds over the remaining pages. -/
theorem merge_skips_missing_files
    (ps : List (Nat × String)) (pathExists : String → Bool)
    (w : Except String Unit) (outputPdf : String) (dn : String → String) :
    (finish_conversion .merged ps pathExists w outputPdf dn).appended
      = ((sortResults ps).filter fun p => pathExists p.2).map Prod.snd
    ∧ ((finish_conversion .merged ps pathExists w outputPdf dn).appended.all
        fun s => pathExists s) = true
    ∧ (finish_conversion .merged ps pathExists (.ok ()) outputPdf dn).errorPopup
        = none := by
  have h1 : (finish_conversion .merged ps pathExists w outputPdf dn).appended
      = ((sortResults ps).filter fun p => pathExists p.2).map Prod.snd := by
    cases w <;> rfl
  refine ⟨h1, ?_, rfl⟩
  rw [h1]
  simp only [List.all_eq_true, List.mem_map]
  rintro s ⟨p, hp, rfl⟩
  exact (List.mem_filter.mp hp).2

/-- C10: once the cancel flag is set, the next polling tick takes the
finalize branch regardless of how many futures completed, and finalization is
the same `finish_conversion` computation as for an uncancelled run: in merged
mode the pages that exist are appended in index order and deletion of every
temporary path is attempted. -/
theorem cancelled_run_finalizes
    (completed total : Nat) (ps : List (Nat × String)) (pathExists : String → Bool)
    (w : Except String Unit) (outputPdf : String) (dn : String → String) :
    check_futures completed total true = .finalize
    ∧ (finish_conversion .merged ps pathExists w outputPdf dn).appended
        = ((sortResults ps).filter fun p => pathExists p.2).map Prod.snd
    ∧ (finish_conversion .merged ps pathExists w outputPdf dn).removeAttempted
        = (sortResults ps).map Prod.snd := by
  refine ⟨by simp [check_futures], ?_, ?_⟩ <;> cases w <;> rfl

end Webpage2PDF
